import Mathlib

/-! Formal model of the monorepo-watcher watching core: package resolution,
the change-event debouncer, the execution lock, action dispatch, process
spawning, watch-set registration and configuration merging, translated from
src/src/helpers/config-utils.ts (the Events class and the config helpers). -/

namespace MonorepoWatcher

/-- JS String.prototype.includes: substring containment test, as used by
Events.getPackage (config-utils.ts line 209, path.includes(pkg.dir)). -/
def jsIncludes (s sub : String) : Bool :=
  (List.range (s.data.length + 1)).any fun i => sub.data.isPrefixOf (s.data.drop i)

/-- Split a character list at every occurrence of a separator character. The
empty list yields one empty piece, matching JS split, which never returns an
empty array. Structural, so it computes by kernel reduction. -/
def splitChar (c : Char) : List Char → List (List Char)
  | [] => [[]]
  | x :: xs =>
    if x = c then [] :: splitChar c xs
    else
      match splitChar c xs with
      | [] => [[x]]
      | y :: ys => (x :: y) :: ys

/-- JS s.split("/") for the one-character separator used by the source. -/
def jsSplitSlash (s : String) : List String :=
  (splitChar '/' s.data).map String.mk

/-- Final slash-separated segment of a directory path, mirroring
pkg.dir.split("/").pop() (config-utils.ts line 212). split("/") never yields
an empty list, so the pop always succeeds; the default is never used. -/
def lastSegment (dir : String) : String :=
  (jsSplitSlash dir).getLastD ""

/-- A workspace package as supplied by manypkg get-packages: the declared
manifest name (packageJson.name) and the package directory (dir). -/
structure Package where
  name : String
  dir : String
deriving DecidableEq

/-- Whether getPackage's scan matches a package for the given path:
path.includes(pkg.dir) (config-utils.ts line 209). -/
def pkgMatches (path : String) (pkg : Package) : Bool :=
  jsIncludes path pkg.dir

/-- One iteration of Events.getPackage's forEach body: a matching package
overwrites the accumulated (currentPkg, packagePath) pair
(config-utils.ts lines 208-215). -/
def resolveStep (path : String) (acc : String × String) (pkg : Package) : String × String :=
  if pkgMatches path pkg then (lastSegment pkg.dir, pkg.dir) else acc

/-- Events.getPackage (config-utils.ts lines 202-218): sequential scan over
all packages with no short-circuit; returns (currentPkg, packagePath), both
initialised to the empty string. -/
def getPackage (path : String) (packages : List Package) : String × String :=
  packages.foldl (resolveStep path) ("", "")

/-- CLI arguments relevant to config normalization: argv.run, the
CLI-style run command list. -/
structure ArgsOptions where
  run : List String
deriving DecidableEq

/-- Modelled from the spec: isAsync (src/helpers/utils is not among the
provided sources) performs dynamic is-this-function-asynchronous detection
(spec section 9). A configured action is modelled as a function value carrying
that recognition result as a flag; the runtime behaviour of an invocation is
supplied separately by a World record. -/
structure UserFn where
  isAsyncFn : Bool
deriving DecidableEq

/-- User-facing configuration file shape (IConfig in src/types): every field
is optional before normalization and merging. pfx stands for the source field
named prefix, which is a reserved word in Lean. -/
structure IConfig where
  pfx : Option String
  actionsCfg : Option (List (String × UserFn))
  includeDirs : Option (List String)
  runScripts : Option (List String)
  noChildProcessLogs : Option Bool
deriving DecidableEq

/-- Fully merged configuration (InternalConfig in src/types): all fields
resolved to concrete values. -/
structure InternalConfig where
  pfx : String
  actionsCfg : Option (List (String × UserFn))
  includeDirs : List String
  runScripts : List String
  noChildProcessLogs : Bool
deriving DecidableEq

/-- JS falsiness of the optional prefix string: !config.prefix is true when
the field is undefined or the empty string (config-utils.ts line 24). -/
def jsFalsyStr : Option String → Bool
  | none => true
  | some s => s.isEmpty

/-- The action validation loop of normalizeConfig (config-utils.ts lines
32-38): every configured action must be recognized as async, otherwise the
first offending action name produces a thrown error. All modelled action
values are functions, matching the typeof check. -/
def checkActions : Option (List (String × UserFn)) → Option String
  | none => none
  | some acts =>
    match acts.find? (fun a => !a.2.isAsyncFn) with
    | some a => some ("Action " ++ a.1 ++ " is not async")
    | none => none

/-- The guard config.runScripts?.length === 0 (config-utils.ts line 43):
optional chaining yields undefined when runScripts is absent, and
undefined === 0 is false, so the guard holds only for a present, empty list. -/
def runScriptsDefinedEmpty : Option (List String) → Bool
  | some l => l.isEmpty
  | none => false

/-- The prefix-acquisition step of normalizeConfig (config-utils.ts lines
24-29): when config.prefix is falsy, take the part before the first slash of
the first package's manifest name. packages[0] on an empty list is a JS
TypeError; split never yields an empty list, so the length-zero throw is
unreachable but kept. -/
def fixPfx (config : IConfig) (packages : List Package) : Except String IConfig :=
  if jsFalsyStr config.pfx then
    match packages with
    | [] => Except.error "TypeError: packages[0] is undefined"
    | pkg0 :: _ =>
      let name := jsSplitSlash pkg0.name
      if name.length = 0 then
        Except.error "Could not get package name. Please specify one in the config file"
      else Except.ok { config with pfx := some (name.headD "") }
  else Except.ok config

/-- The include defaulting step of normalizeConfig (config-utils.ts line 41):
an absent include list becomes the src default; an empty array is truthy in
JS and is kept. -/
def fixInclude (config : IConfig) : IConfig :=
  if config.includeDirs.isNone then { config with includeDirs := some ["src"] }
  else config

/-- normalizeConfig (config-utils.ts lines 22-50): derive the prefix from the
first package when missing, validate that all configured actions are async,
default the include list, reject a configuration with no command and no
actions, and let a non-empty CLI run list replace runScripts. Thrown errors
are modelled as Except.error. -/
def normalizeConfig (config : IConfig) (packages : List Package) (argv : ArgsOptions) :
    Except String IConfig :=
  match fixPfx config packages with
  | Except.error e => Except.error e
  | Except.ok config =>
    match checkActions config.actionsCfg with
    | some msg => Except.error msg
    | none =>
      if argv.run.length == 0 && runScriptsDefinedEmpty (fixInclude config).runScripts
          && (fixInclude config).actionsCfg.isNone then
        Except.error "Please pass a command or a list of actions to the config file"
      else if argv.run.length > 0 then
        Except.ok { fixInclude config with runScripts := some argv.run }
      else Except.ok (fixInclude config)

/-- lodash merge on two array values: arrays are merged index-wise, source
elements overriding destination elements, the longer tail surviving. -/
def mergeArr (dest src : List String) : List String :=
  src ++ dest.drop src.length

/-- Modelled from the spec: defaultConfig lives in src/helpers/consts, which
is not among the provided sources. Per spec sections 4.5 and 6 the default
configuration supplies the include list default, no actions, and a command
list derived from the CLI run arguments it receives. -/
def defaultConfig (argv : ArgsOptions) : InternalConfig :=
  { pfx := ""
    actionsCfg := none
    includeDirs := ["src"]
    runScripts := argv.run
    noChildProcessLogs := false }

/-- lodash mergeWith(defaultConfig(argv), config) with no customizer
(config-utils.ts line 17): defined source fields override or index-wise merge
into the destination, absent source fields keep the destination value. -/
def mergeConfig (dest : InternalConfig) (src : IConfig) : InternalConfig :=
  { pfx := src.pfx.getD dest.pfx
    actionsCfg :=
      match src.actionsCfg with
      | some a => some a
      | none => dest.actionsCfg
    includeDirs :=
      match src.includeDirs with
      | some l => mergeArr dest.includeDirs l
      | none => dest.includeDirs
    runScripts :=
      match src.runScripts with
      | some l => mergeArr dest.runScripts l
      | none => dest.runScripts
    noChildProcessLogs := src.noChildProcessLogs.getD dest.noChildProcessLogs }

/-- MergeNormalizeConfig (config-utils.ts lines 10-20): normalize the user
config, then override the default config with it. -/
def MergeNormalizeConfig (config : IConfig) (packages : List Package) (argv : ArgsOptions) :
    Except String InternalConfig :=
  match normalizeConfig config packages argv with
  | Except.error e => Except.error e
  | Except.ok c => Except.ok (mergeConfig (defaultConfig argv) c)

/-- Event context handed to actions (ActionOpts in src/types): resolved
package name, triggering file path and package directory. The optional stats
value carries no structure any claim depends on and is omitted. -/
structure ActionOpts where
  currentPkg : String
  filePath : String
  packagePath : String
deriving DecidableEq

/-- Modelled from the spec: convertPath (src/helpers/utils is not among the
provided sources) maps an absolute file path to the path relative to the
workspace root (spec section 4.5). -/
def convertPath (root filePath : String) : String :=
  if (root ++ "/").data.isPrefixOf filePath.data then
    String.mk (filePath.data.drop (root.data.length + 1))
  else filePath

/-- One standard stream disposition in the spawn stdio option. parentStderr
stands for passing the parent process.stderr stream object, which routes the
child stream straight into the parent standard error. -/
inductive StdioChannel
  | inherit
  | pipe
  | ignore
  | parentStderr
deriving DecidableEq

/-- The stdio triple (stdin, stdout, stderr) handed to spawn.sync. -/
structure StdioTriple where
  stdin : StdioChannel
  stdout : StdioChannel
  stderr : StdioChannel
deriving DecidableEq

/-- The stdio option computed in runUserFn (config-utils.ts lines 231-233):
"ignore" collapses to discarding all three streams, otherwise the array
["inherit", "pipe", process.stderr] is used positionally for
stdin, stdout, stderr. -/
def spawnStdio (cfg : InternalConfig) : StdioTriple :=
  if cfg.noChildProcessLogs then
    { stdin := StdioChannel.ignore, stdout := StdioChannel.ignore,
      stderr := StdioChannel.ignore }
  else
    { stdin := StdioChannel.inherit, stdout := StdioChannel.pipe,
      stderr := StdioChannel.parentStderr }

/-- The full argument record of the spawn.sync call in runUserFn
(config-utils.ts lines 236-242): command head, argument tail, the working
directory, the stdio triple, the FORCE_COLOR environment override set just
before the call, and the synchronous flavour of the call. -/
structure SpawnCall where
  cmd : String
  args : List String
  cwd : String
  stdio : StdioTriple
  envForceColor : Bool
  sync : Bool
deriving DecidableEq

/-- The spawn.sync invocation built by runUserFn from the merged config and
the event context: runScripts[0] as the executable, runScripts.slice(1) as
arguments, options.packagePath as cwd. -/
def spawnCallOf (cfg : InternalConfig) (options : ActionOpts) : SpawnCall :=
  { cmd := cfg.runScripts.headD ""
    args := cfg.runScripts.tail
    cwd := options.packagePath
    stdio := spawnStdio cfg
    envForceColor := true
    sync := true }

/-- Outcome of one invocation of a user callback promise. -/
inductive POutcome
  | resolved
  | rejected (msg : String)
deriving DecidableEq

/-- The stderr field of a spawn.sync result: null, or a Buffer with the given
content. A Buffer object is truthy in JS even when empty, which is why the
constructor keeps the content separate from the null case. -/
inductive StderrVal
  | nullVal
  | buf (content : String)
deriving DecidableEq

/-- Result record of cross-spawn spawn.sync as inspected by runUserFn
(config-utils.ts lines 244-245): a spawn-level error object and the stderr
field. -/
structure SpawnResult where
  error : Option String
  stderr : StderrVal
deriving DecidableEq

/-- Environment behaviour outside the core's control for a single dispatch:
how the user callback promise settles and what spawn.sync reports. -/
structure World where
  cbOutcome : POutcome
  spawnResult : SpawnResult
deriving DecidableEq

/-- Observable effects of one event dispatch, in program order: watcher add
and unwatch calls, a user callback invocation, a spawn.sync call, the
EndLogger completion entry (tagged with the event name and the path relative
to the root), a thrown error, and an unhandled promise rejection. -/
inductive Effect
  | watchAdd (p : String)
  | watchRemove (p : String)
  | invokeCallback (eventName : String) (opts : ActionOpts)
  | spawnSync (call : SpawnCall)
  | endLog (eventName : String) (path : String)
  | throwErr (msg : String)
  | unhandledRejection (msg : String)
deriving DecidableEq

/-- The spawn branch of runUserFn (config-utils.ts lines 231-247): run
spawn.sync, then throw cp.error if present, else throw Error(String(cp.stderr))
if cp.stderr is truthy (any Buffer, empty included), else reach EndLogger.
A throw ends the effect list; nothing follows it. -/
def spawnEffects (cfg : InternalConfig) (options : ActionOpts) (eventName relPath : String)
    (cp : SpawnResult) : List Effect :=
  Effect.spawnSync (spawnCallOf cfg options) ::
    match cp.error with
    | some e => [Effect.throwErr e]
    | none =>
      match cp.stderr with
      | StderrVal.buf s => [Effect.throwErr s]
      | StderrVal.nullVal => [Effect.endLog eventName relPath]

/-- Events.runUserFn (config-utils.ts lines 220-249). If fn is present and
isAsync(fn) === true, the callback is invoked and EndLogger is chained with
.then with no rejection handler, so a rejection skips the completion log and
escapes as an unhandled rejection; otherwise the spawn branch runs. -/
def runUserFn (cfg : InternalConfig) (root eventName : String) (options : ActionOpts)
    (fn : Option UserFn) (world : World) : List Effect :=
  let relativePath := convertPath root options.filePath
  match fn with
  | some f =>
    if f.isAsyncFn then
      Effect.invokeCallback eventName options ::
        match world.cbOutcome with
        | POutcome.resolved => [Effect.endLog eventName relativePath]
        | POutcome.rejected e => [Effect.unhandledRejection e]
    else spawnEffects cfg options eventName relativePath world.spawnResult
  | none => spawnEffects cfg options eventName relativePath world.spawnResult

/-- Lookup of a configured action by event name, mirroring
this.config?.actions?.add and friends. -/
def lookupAction (cfg : InternalConfig) (actionName : String) : Option UserFn :=
  match cfg.actionsCfg with
  | none => none
  | some acts => (acts.find? (fun a => a.1 == actionName)).map (fun a => a.2)

/-- The chokidar watch set grown by FSWatcher.add. Modelled from the spec
(section 6): the watch primitive is an external collaborator whose add call
grows the watch set; adding a path already watched changes nothing and does
not error, so the model is set insertion. -/
def wsAdd (s : List String) (p : String) : List String :=
  if p ∈ s then s else s ++ [p]

/-- The chokidar watch set shrunk by FSWatcher.unwatch. Modelled from the
spec (section 6): unwatching removes the path; unwatching an absent path
changes nothing and does not error. -/
def wsUnwatch (s : List String) (p : String) : List String :=
  s.filter (fun q => !(q == p))

/-- Mutable state of the Events instance that the claims concern: the watch
set of the chokidar instance plus the fixed root, config and package list. -/
structure EventsState where
  watchSet : List String
  root : String
  config : InternalConfig
  packages : List Package

/-- Events.onAdd handler body (config-utils.ts lines 119-130): look up the
add action, resolve the package, add the path to the watch set, then run the
user function. The watchAdd effect precedes all action effects. -/
def onAddEvent (st : EventsState) (filePath : String) (world : World) :
    EventsState × List Effect :=
  let fn := lookupAction st.config "add"
  let pk := getPackage filePath st.packages
  ({ st with watchSet := wsAdd st.watchSet filePath },
    Effect.watchAdd filePath ::
      runUserFn st.config st.root "Add" ⟨pk.1, filePath, pk.2⟩ fn world)

/-- Events.onAddDir handler body (config-utils.ts lines 132-143). -/
def onAddDirEvent (st : EventsState) (filePath : String) (world : World) :
    EventsState × List Effect :=
  let fn := lookupAction st.config "addDir"
  let pk := getPackage filePath st.packages
  ({ st with watchSet := wsAdd st.watchSet filePath },
    Effect.watchAdd filePath ::
      runUserFn st.config st.root "Add Dir" ⟨pk.1, filePath, pk.2⟩ fn world)

/-- Events.onUnlink handler body (config-utils.ts lines 145-156): unwatch the
path, then run the user function. -/
def onUnlinkEvent (st : EventsState) (filePath : String) (world : World) :
    EventsState × List Effect :=
  let fn := lookupAction st.config "unlink"
  let pk := getPackage filePath st.packages
  ({ st with watchSet := wsUnwatch st.watchSet filePath },
    Effect.watchRemove filePath ::
      runUserFn st.config st.root "Remove" ⟨pk.1, filePath, pk.2⟩ fn world)

/-- Events.onUnlinkDir handler body (config-utils.ts lines 158-169). -/
def onUnlinkDirEvent (st : EventsState) (filePath : String) (world : World) :
    EventsState × List Effect :=
  let fn := lookupAction st.config "unlinkDir"
  let pk := getPackage filePath st.packages
  ({ st with watchSet := wsUnwatch st.watchSet filePath },
    Effect.watchRemove filePath ::
      runUserFn st.config st.root "Remove Dir" ⟨pk.1, filePath, pk.2⟩ fn world)

/-- Options of a lodash debounce instance: wait, the optional maxWait, and
the leading and trailing edge flags. -/
structure DebounceOpts where
  wait : Nat
  maxWait : Option Nat
  leading : Bool
  trailing : Bool
deriving DecidableEq

/-- The debounce options of Events.onChange (config-utils.ts lines 196-197):
wait 2000, maxWait 3000, leading true; trailing is lodash's default true
because the call site does not set it. -/
def changeDebounceOpts : DebounceOpts :=
  { wait := 2000, maxWait := some 3000, leading := true, trailing := true }

/-- lodash maxing flag and effective maxWait: maxing holds when maxWait is
present, and the effective value is max(maxWait, wait). -/
def maxWaitOf (o : DebounceOpts) : Nat :=
  max (o.maxWait.getD 0) o.wait

/-- Internal state of a lodash debounce instance: lastArgs, lastCallTime,
lastInvokeTime (initially 0), the pending timer deadline (timerId), and the
accumulated invocations of the wrapped function, each carrying the invocation
time and the argument it received. -/
structure DState where
  lastArgs : Option String
  lastCallTime : Option Nat
  lastInvokeTime : Nat
  timerDeadline : Option Nat
  invocations : List (Nat × String)
deriving DecidableEq

/-- Fresh debounce state. -/
def DState.init : DState :=
  { lastArgs := none, lastCallTime := none, lastInvokeTime := 0,
    timerDeadline := none, invocations := [] }

/-- lodash shouldInvoke: first call ever, or quiet for at least wait since
the last call, or (maxing) at least maxWait since the last invocation. Time
is monotone here, so the negative timeSinceLastCall branch cannot arise. -/
def shouldInvoke (o : DebounceOpts) (s : DState) (time : Nat) : Bool :=
  match s.lastCallTime with
  | none => true
  | some lct =>
    decide (o.wait ≤ time - lct)
      || (o.maxWait.isSome && decide (maxWaitOf o ≤ time - s.lastInvokeTime))

/-- lodash invokeFunc: consume lastArgs, record the invocation, stamp
lastInvokeTime. -/
def invokeFunc (s : DState) (time : Nat) : DState :=
  { s with lastArgs := none, lastInvokeTime := time,
           invocations := s.invocations ++ [(time, s.lastArgs.getD "")] }

/-- lodash leadingEdge: stamp lastInvokeTime, start the wait timer, and
invoke immediately when the leading flag is set. -/
def leadingEdge (o : DebounceOpts) (s : DState) (time : Nat) : DState :=
  let s := { s with lastInvokeTime := time, timerDeadline := some (time + o.wait) }
  if o.leading then invokeFunc s time else s

/-- lodash remainingWait: time left in the quiet window, clipped by the time
left until maxWait when maxing. -/
def remainingWait (o : DebounceOpts) (s : DState) (time : Nat) : Nat :=
  let timeWaiting := o.wait - (time - s.lastCallTime.getD 0)
  if o.maxWait.isSome then min timeWaiting (maxWaitOf o - (time - s.lastInvokeTime))
  else timeWaiting

/-- lodash trailingEdge: clear the timer and invoke with the pending
lastArgs when the trailing flag is set and a call arrived since the last
invocation; otherwise just clear lastArgs. -/
def trailingEdge (o : DebounceOpts) (s : DState) (time : Nat) : DState :=
  let s := { s with timerDeadline := none }
  if o.trailing && s.lastArgs.isSome then invokeFunc s time
  else { s with lastArgs := none }

/-- lodash timerExpired: fire the trailing edge when due, otherwise restart
the timer for the remaining wait. -/
def timerExpired (o : DebounceOpts) (s : DState) (time : Nat) : DState :=
  if shouldInvoke o s time then trailingEdge o s time
  else { s with timerDeadline := some (time + remainingWait o s time) }

/-- The debounced entry point of lodash debounce: record the call, then fire
the leading edge when invokable with no pending timer, fire immediately with
a timer reset when invokable while maxing, or just ensure a timer exists. -/
def debounced (o : DebounceOpts) (s : DState) (time : Nat) (args : String) : DState :=
  let isInvoking := shouldInvoke o s time
  let s := { s with lastArgs := some args, lastCallTime := some time }
  if isInvoking then
    match s.timerDeadline with
    | none => leadingEdge o s time
    | some _ =>
      if o.maxWait.isSome then
        invokeFunc { s with timerDeadline := some (time + o.wait) } time
      else s
  else
    match s.timerDeadline with
    | none => { s with timerDeadline := some (time + o.wait) }
    | some _ => s

/-- Event-driven driver for a debounce instance: process the pending timer
expiry and the queued calls in time order (the timer first when due no later
than the next call), until both are exhausted. Fuel bounds the recursion; it
is never reached in the finite scenarios below. -/
def debounceRun (o : DebounceOpts) : Nat → DState → List (Nat × String) → DState
  | 0, s, _ => s
  | Nat.succ fuel, s, calls =>
    match s.timerDeadline, calls with
    | none, [] => s
    | some d, [] => debounceRun o fuel (timerExpired o s d) []
    | none, (t, a) :: rest => debounceRun o fuel (debounced o s t a) rest
    | some d, (t, a) :: rest =>
      if d ≤ t then debounceRun o fuel (timerExpired o s d) ((t, a) :: rest)
      else debounceRun o fuel (debounced o s t a) rest

/-- Invocations produced by the change debouncer of Events.onChange for a
finite burst of change notifications, each given as (arrival time, path). -/
def debounceFires (calls : List (Nat × String)) : List (Nat × String) :=
  (debounceRun changeDebounceOpts 100 DState.init calls).invocations

/-- The action configured for change events, with the wall-clock duration of
its body: an async user callback, or the spawned command chain. -/
inductive ChangeAction
  | userAsync (dur : Nat)
  | spawnCmd (dur : Nat)
deriving DecidableEq

/-- The wall-clock interval during which one change-triggered action body is
in flight. -/
structure BodyInterval where
  startT : Nat
  endT : Nat
deriving DecidableEq

/-- Action-body intervals for a sorted sequence of debounced change firings,
derived from Events.onChange and Events.runUserFn (config-utils.ts lines
192-194 and 220-249) together with the async-lock release rule. The lock
callback is an arrow function whose body calls this.runUserFn and returns
undefined; async-lock holds the lock only while a callback that returns a
promise is pending, so here it is released as soon as the synchronous part of
runUserFn returns. For a spawn-command action, spawn.sync blocks the event
loop (and the lock callback) for the whole child run, so the next firing is
handled only after the body ends. For an async user callback, runUserFn calls
fn(...).then(...) without returning the promise, so the handler returns (and
the lock is released) immediately while the callback body keeps running
detached: the next firing can be handled while the body is still in flight.
free is the earliest time the event loop and lock can take the next firing. -/
def changeBodies : ChangeAction → List Nat → Nat → List BodyInterval
  | _, [], _ => []
  | ChangeAction.spawnCmd d, t :: rest, free =>
    let s := max t free
    { startT := s, endT := s + d } :: changeBodies (ChangeAction.spawnCmd d) rest (s + d)
  | ChangeAction.userAsync d, t :: rest, free =>
    let s := max t free
    { startT := s, endT := s + d } :: changeBodies (ChangeAction.userAsync d) rest s

/-- Whether an action body is in flight at instant t. -/
def inFlight (b : BodyInterval) (t : Nat) : Bool :=
  decide (b.startT ≤ t) && decide (t < b.endT)

/-- A merged configuration with no actions, a two-word command list and child
logs enabled, used as a concrete evaluation point. -/
def cfgW : InternalConfig :=
  { pfx := "repo", actionsCfg := none, includeDirs := ["src"],
    runScripts := ["echo", "hi"], noChildProcessLogs := false }

/-- A concrete resolved event context. -/
def optsW : ActionOpts :=
  { currentPkg := "pkg-a", filePath := "/repo/packages/pkg-a/src/index.ts",
    packagePath := "/repo/packages/pkg-a" }

/-- A spawn result with no error and a null stderr. -/
def spawnOkW : SpawnResult := { error := none, stderr := StderrVal.nullVal }

/-- A spawn result whose stderr Buffer holds content. -/
def spawnStderrW : SpawnResult := { error := none, stderr := StderrVal.buf "boom" }

/-- A world where the callback resolves and the spawn succeeds. -/
def worldOkW : World := { cbOutcome := POutcome.resolved, spawnResult := spawnOkW }

/-- A world where the callback rejects. -/
def worldRejW : World := { cbOutcome := POutcome.rejected "boom", spawnResult := spawnOkW }

/-- Two packages whose directories nest, the inner one last in list order. -/
def pkgsEx3 : List Package :=
  [{ name := "pkg-a", dir := "/repo/packages/a" },
   { name := "pkg-b", dir := "/repo/packages/a/b" }]

/-- A package whose manifest name is scoped and differs from the directory
basename. -/
def pkgEx10 : Package := { name := "@scope/foo", dir := "/repo/packages/foo" }

/-- A user config file with a runScripts value, for the CLI-override claim. -/
def cfgEx9 : IConfig :=
  { pfx := none, actionsCfg := none, includeDirs := none,
    runScripts := some ["npm", "test"], noChildProcessLogs := none }

/-- A one-package workspace for the CLI-override claim. -/
def pkgsEx9 : List Package := [{ name := "@scope/pkg", dir := "/repo/packages/pkg" }]

/-- CLI arguments carrying a non-empty run list. -/
def argvEx9 : ArgsOptions := { run := ["echo", "hi"] }

/-- The merged configuration produced from cfgEx9, pkgsEx9 and argvEx9. -/
def icEx9 : InternalConfig :=
  { pfx := "@scope", actionsCfg := none, includeDirs := ["src"],
    runScripts := ["echo", "hi"], noChildProcessLogs := false }

/-- The getPackage fold leaves its accumulator untouched over a stretch of
packages none of which matches the path. -/
theorem foldl_resolve_no_match (path : String) :
    ∀ (l : List Package) (acc : String × String),
      (∀ pkg ∈ l, pkgMatches path pkg = false) →
      l.foldl (resolveStep path) acc = acc
  | [], _, _ => rfl
  | p :: rest, acc, h => by
    have hp : pkgMatches path p = false := h p (List.mem_cons_self p rest)
    have hrest : ∀ pkg ∈ rest, pkgMatches path pkg = false :=
      fun q hq => h q (List.mem_cons_of_mem p hq)
    have hstep : resolveStep path acc p = acc := by simp [resolveStep, hp]
    rw [List.foldl_cons, hstep]
    exact foldl_resolve_no_match path rest acc hrest

/-- getPackage returns the directory basename and directory of the last
matching package in list order: everything before it is overwritten, and
nothing after it matches. -/
theorem getPackage_last_match (path : String) (l₁ : List Package) (pkg : Package)
    (l₂ : List Package) (hm : pkgMatches path pkg = true)
    (hl₂ : ∀ q ∈ l₂, pkgMatches path q = false) :
    getPackage path (l₁ ++ pkg :: l₂) = (lastSegment pkg.dir, pkg.dir) := by
  unfold getPackage
  rw [List.foldl_append, List.foldl_cons]
  have hstep : resolveStep path (l₁.foldl (resolveStep path) ("", "")) pkg =
      (lastSegment pkg.dir, pkg.dir) := by simp [resolveStep, hm]
  rw [hstep]
  exact foldl_resolve_no_match path l₂ _ hl₂

/-- Whenever normalizeConfig succeeds with a non-empty CLI run list, the
normalized config stores exactly that list as runScripts. -/
theorem normalizeConfig_run_override (config : IConfig) (packages : List Package)
    (argv : ArgsOptions) (c : IConfig) (hrun : argv.run ≠ [])
    (h : normalizeConfig config packages argv = Except.ok c) :
    c.runScripts = some argv.run := by
  have hlen : 0 < argv.run.length := List.length_pos.mpr hrun
  have hne : (argv.run.length == 0) = false := by
    simp only [beq_eq_false_iff_ne, ne_eq]
    omega
  unfold normalizeConfig at h
  cases hfix : fixPfx config packages with
  | error e => rw [hfix] at h; exact Except.noConfusion h
  | ok c1 =>
    rw [hfix] at h
    dsimp only at h
    cases hca : checkActions c1.actionsCfg with
    | some msg => rw [hca] at h; exact Except.noConfusion h
    | none =>
      rw [hca] at h
      dsimp only at h
      rw [hne] at h
      simp only [Bool.false_and, Bool.false_eq_true, if_false] at h
      rw [if_pos hlen] at h
      injection h with h
      rw [← h]

/-- C1 (code bug): the debounced change handler acquires the single named
lock, but the lock callback does not return the promise of the async user
callback, so the lock is released before the callback body completes. With an
async change action of duration 10 and debounced firings at t = 0 and t = 1,
both action bodies are in flight at instant 1, violating the claimed global
mutual exclusion; with the spawn-command action, the synchronous spawn does
serialize the bodies. -/
theorem C1_change_bodies_overlap :
    changeBodies (ChangeAction.userAsync 10) [0, 1] 0 =
      [{ startT := 0, endT := 10 }, { startT := 1, endT := 11 }] ∧
    inFlight { startT := 0, endT := 10 } 1 = true ∧
    inFlight { startT := 1, endT := 11 } 1 = true ∧
    changeBodies (ChangeAction.spawnCmd 10) [0, 1] 0 =
      [{ startT := 0, endT := 10 }, { startT := 10, endT := 20 }] := by
  decide

/-- C2 (counterexample): a burst of two change notifications at t = 0 and
t = 100, both within the 2000-unit quiet window, fires the action twice, not
once — the leading fire at t = 0 carries the first path and the trailing fire
at t = 2100 carries the last path — refuting "fires exactly one action,
carrying the last event's path". -/
theorem C2_burst_counterexample :
    debounceFires [(0, "a"), (100, "b")] = [(0, "a"), (2100, "b")] ∧
    ¬((debounceFires [(0, "a"), (100, "b")]).length = 1 ∧
      (debounceFires [(0, "a"), (100, "b")]).map Prod.snd = ["b"]) := by
  decide

/-- C2 (amended): the change debouncer uses wait 2000, maxWait 3000 and
leading true (with lodash's default trailing true). A lone notification fires
exactly once, immediately; a burst of several notifications inside the quiet
window fires exactly twice — the immediate leading fire with the first
event's path and a trailing fire with the last event's path; a burst that
keeps going past the max-wait ceiling fires more than twice, with a forced
fire 3000 units after the previous invocation. -/
theorem C2_debounce_policy :
    changeDebounceOpts.wait = 2000 ∧ changeDebounceOpts.maxWait = some 3000 ∧
    changeDebounceOpts.leading = true ∧
    debounceFires [(0, "a")] = [(0, "a")] ∧
    debounceFires [(0, "a"), (100, "b")] = [(0, "a"), (2100, "b")] ∧
    debounceFires
        [(0, "p0"), (900, "p1"), (1800, "p2"), (2700, "p3"), (3600, "p4"), (4500, "p5")] =
      [(0, "p0"), (3000, "p3"), (6000, "p5")] := by
  decide

/-- C3: package resolution returns empty strings when no package directory is
contained in the path, and otherwise the reported name and directory of the
last matching package in list order — covering both the unique-match case and
the nested-directories tie-break; the function is total. -/
theorem C3_package_resolution (p : String) (pkgs : List Package) :
    ((∀ pkg ∈ pkgs, pkgMatches p pkg = false) → getPackage p pkgs = ("", "")) ∧
    (∀ l₁ pkg l₂, pkgs = l₁ ++ pkg :: l₂ → pkgMatches p pkg = true →
      (∀ q ∈ l₂, pkgMatches p q = false) →
      getPackage p pkgs = (lastSegment pkg.dir, pkg.dir)) := by
  constructor
  · intro h
    exact foldl_resolve_no_match p pkgs ("", "") h
  · intro l₁ pkg l₂ hsplit hm hl₂
    rw [hsplit]
    exact getPackage_last_match p l₁ pkg l₂ hm hl₂

/-- Witness for C3 at concrete inputs: with two nested package directories the
later, inner package wins, and an unmatched path resolves to empty strings. -/
theorem C3_package_resolution_witness :
    getPackage "/repo/packages/a/b/src/x.ts" pkgsEx3 = ("b", "/repo/packages/a/b") ∧
    getPackage "/nowhere/x.ts" pkgsEx3 = ("", "") := by
  constructor
  · exact ((C3_package_resolution "/repo/packages/a/b/src/x.ts" pkgsEx3).2
      [{ name := "pkg-a", dir := "/repo/packages/a" }]
      { name := "pkg-b", dir := "/repo/packages/a/b" } [] rfl (by decide)
      (by intro q hq; cases hq)).trans (by decide)
  · exact (C3_package_resolution "/nowhere/x.ts" pkgsEx3).1 (by decide)

/-- C4: runUserFn branches exactly on the action being present and recognized
as async — invoking the callback and, on resolution, emitting one completion
log tagged with the event kind and the root-relative path — and otherwise
falls back to spawning the configured command in the resolved package
directory, ending with the same completion log on success. -/
theorem C4_action_dispatch (cfg : InternalConfig) (root eventName : String)
    (options : ActionOpts) (fn : Option UserFn) (world : World) :
    ((∃ f, fn = some f ∧ f.isAsyncFn = true) → world.cbOutcome = POutcome.resolved →
      runUserFn cfg root eventName options fn world =
        [Effect.invokeCallback eventName options,
         Effect.endLog eventName (convertPath root options.filePath)]) ∧
    ((fn = none ∨ ∃ f, fn = some f ∧ f.isAsyncFn = false) →
      runUserFn cfg root eventName options fn world =
        spawnEffects cfg options eventName (convertPath root options.filePath)
          world.spawnResult ∧
      (spawnCallOf cfg options).cwd = options.packagePath) ∧
    ((fn = none ∨ ∃ f, fn = some f ∧ f.isAsyncFn = false) →
      world.spawnResult.error = none → world.spawnResult.stderr = StderrVal.nullVal →
      runUserFn cfg root eventName options fn world =
        [Effect.spawnSync (spawnCallOf cfg options),
         Effect.endLog eventName (convertPath root options.filePath)]) := by
  refine ⟨?_, ?_, ?_⟩
  · rintro ⟨f, rfl, hf⟩ hres
    simp [runUserFn, hf, hres]
  · rintro (rfl | ⟨f, rfl, hf⟩)
    · exact ⟨rfl, rfl⟩
    · exact ⟨by simp [runUserFn, hf], rfl⟩
  · intro hfb he hs
    have h2 : runUserFn cfg root eventName options fn world =
        spawnEffects cfg options eventName (convertPath root options.filePath)
          world.spawnResult := by
      rcases hfb with rfl | ⟨f, rfl, hf⟩
      · rfl
      · simp [runUserFn, hf]
    rw [h2]
    simp [spawnEffects, he, hs]

/-- Witness for C4: with a recognized async action the dispatch invokes the
callback and logs completion; with no action it spawns in the package
directory and logs the same completion. -/
theorem C4_action_dispatch_witness :
    (runUserFn cfgW "/repo" "Add" optsW (some { isAsyncFn := true }) worldOkW =
      [Effect.invokeCallback "Add" optsW,
       Effect.endLog "Add" (convertPath "/repo" optsW.filePath)]) ∧
    (runUserFn cfgW "/repo" "Change" optsW none worldOkW =
      [Effect.spawnSync (spawnCallOf cfgW optsW),
       Effect.endLog "Change" (convertPath "/repo" optsW.filePath)]) ∧
    (spawnCallOf cfgW optsW).cwd = optsW.packagePath := by
  refine ⟨?_, ?_, ?_⟩
  · exact (C4_action_dispatch cfgW "/repo" "Add" optsW (some { isAsyncFn := true }) worldOkW).1
      ⟨{ isAsyncFn := true }, rfl, rfl⟩ rfl
  · exact (C4_action_dispatch cfgW "/repo" "Change" optsW none worldOkW).2.2 (Or.inl rfl) rfl rfl
  · exact ((C4_action_dispatch cfgW "/repo" "Change" optsW none worldOkW).2.1 (Or.inl rfl)).2

/-- C5: when the spawn result carries a spawn-level error or a non-empty
stderr Buffer, the spawn branch raises immediately after the single spawn —
no completion log is ever emitted on that path — and a completion log appears
only when the result has no error and a null stderr. -/
theorem C5_spawn_failure_raises (cfg : InternalConfig) (options : ActionOpts)
    (eventName relPath : String) (cp : SpawnResult) :
    ((cp.error ≠ none ∨ ∃ s, cp.stderr = StderrVal.buf s ∧ s ≠ "") →
      (∃ e, spawnEffects cfg options eventName relPath cp =
        [Effect.spawnSync (spawnCallOf cfg options), Effect.throwErr e]) ∧
      ∀ n p, Effect.endLog n p ∉ spawnEffects cfg options eventName relPath cp) ∧
    ((∃ n p, Effect.endLog n p ∈ spawnEffects cfg options eventName relPath cp) →
      cp.error = none ∧ cp.stderr = StderrVal.nullVal) := by
  obtain ⟨err, stderr⟩ := cp
  cases err with
  | some e =>
    constructor
    · intro _
      refine ⟨⟨e, rfl⟩, ?_⟩
      intro n p hmem
      simp [spawnEffects] at hmem
    · rintro ⟨n, p, hmem⟩
      simp [spawnEffects] at hmem
  | none =>
    cases stderr with
    | buf s =>
      constructor
      · intro _
        refine ⟨⟨s, rfl⟩, ?_⟩
        intro n p hmem
        simp [spawnEffects] at hmem
      · rintro ⟨n, p, hmem⟩
        simp [spawnEffects] at hmem
    | nullVal =>
      constructor
      · rintro (he | ⟨s, hs, _⟩)
        · exact absurd rfl he
        · exact StderrVal.noConfusion hs
      · intro _
        exact ⟨rfl, rfl⟩

/-- Witness for C5: a spawn whose stderr Buffer holds content produces a
throw right after the spawn and no completion log. -/
theorem C5_spawn_failure_raises_witness :
    (∃ e, spawnEffects cfgW optsW "Change" "packages/pkg-a/src/index.ts" spawnStderrW =
      [Effect.spawnSync (spawnCallOf cfgW optsW), Effect.throwErr e]) ∧
    ∀ n p, Effect.endLog n p ∉
      spawnEffects cfgW optsW "Change" "packages/pkg-a/src/index.ts" spawnStderrW :=
  (C5_spawn_failure_raises cfgW optsW "Change" "packages/pkg-a/src/index.ts" spawnStderrW).1
    (Or.inr ⟨"boom", rfl, by decide⟩)

/-- C6: an async user callback is invoked with no surrounding error handling:
a rejection yields exactly the invocation followed by an unhandled rejection
carrying the same error — no completion log, no catch, no retry or spawn
fallback. -/
theorem C6_callback_rejection_unhandled (cfg : InternalConfig) (root eventName : String)
    (options : ActionOpts) (f : UserFn) (world : World) (msg : String)
    (hf : f.isAsyncFn = true) (hrej : world.cbOutcome = POutcome.rejected msg) :
    runUserFn cfg root eventName options (some f) world =
      [Effect.invokeCallback eventName options, Effect.unhandledRejection msg] ∧
    (∀ n p, Effect.endLog n p ∉ runUserFn cfg root eventName options (some f) world) ∧
    (∀ c, Effect.spawnSync c ∉ runUserFn cfg root eventName options (some f) world) := by
  have h : runUserFn cfg root eventName options (some f) world =
      [Effect.invokeCallback eventName options, Effect.unhandledRejection msg] := by
    simp [runUserFn, hf, hrej]
  refine ⟨h, ?_, ?_⟩
  · intro n p hmem
    rw [h] at hmem
    simp at hmem
  · intro c hmem
    rw [h] at hmem
    simp at hmem

/-- Witness for C6: a rejecting async change callback leaves an unhandled
rejection and no completion log. -/
theorem C6_callback_rejection_unhandled_witness :
    runUserFn cfgW "/repo" "Change" optsW (some { isAsyncFn := true }) worldRejW =
      [Effect.invokeCallback "Change" optsW, Effect.unhandledRejection "boom"] ∧
    (∀ n p, Effect.endLog n p ∉
      runUserFn cfgW "/repo" "Change" optsW (some { isAsyncFn := true }) worldRejW) ∧
    (∀ c, Effect.spawnSync c ∉
      runUserFn cfgW "/repo" "Change" optsW (some { isAsyncFn := true }) worldRejW) :=
  C6_callback_rejection_unhandled cfgW "/repo" "Change" optsW { isAsyncFn := true }
    worldRejW "boom" rfl rfl

/-- C7 (counterexample): with child logs enabled the stdio option is
["inherit", "pipe", process.stderr], so the child's stdout is piped
(captured), not inherited as claimed. -/
theorem C7_stdout_not_inherited :
    (spawnStdio cfgW).stdout = StdioChannel.pipe ∧
    ¬(spawnStdio cfgW).stdout = StdioChannel.inherit := by
  decide

/-- C7 (amended): the spawner runs the head of the command list with the tail
as arguments, synchronously, in the resolved package directory, with the
inherited environment plus the forced FORCE_COLOR override; when child logs
are suppressed all three streams are discarded, and otherwise stdin is
inherited, stdout is piped (captured), and stderr is routed to the parent's
own stderr. -/
theorem C7_spawn_contract (cfg : InternalConfig) (options : ActionOpts) :
    (spawnCallOf cfg options).cmd = cfg.runScripts.headD "" ∧
    (spawnCallOf cfg options).args = cfg.runScripts.tail ∧
    (spawnCallOf cfg options).sync = true ∧
    (spawnCallOf cfg options).cwd = options.packagePath ∧
    (spawnCallOf cfg options).envForceColor = true ∧
    (cfg.noChildProcessLogs = true →
      (spawnCallOf cfg options).stdio =
        { stdin := StdioChannel.ignore, stdout := StdioChannel.ignore,
          stderr := StdioChannel.ignore }) ∧
    (cfg.noChildProcessLogs = false →
      (spawnCallOf cfg options).stdio =
        { stdin := StdioChannel.inherit, stdout := StdioChannel.pipe,
          stderr := StdioChannel.parentStderr }) := by
  refine ⟨rfl, rfl, rfl, rfl, rfl, ?_, ?_⟩
  · intro h
    simp [spawnCallOf, spawnStdio, h]
  · intro h
    simp [spawnCallOf, spawnStdio, h]

/-- Witness for C7 (amended) at a concrete configuration with child logs
enabled. -/
theorem C7_spawn_contract_witness :
    (spawnCallOf cfgW optsW).cmd = cfgW.runScripts.headD "" ∧
    (spawnCallOf cfgW optsW).args = cfgW.runScripts.tail ∧
    (spawnCallOf cfgW optsW).sync = true ∧
    (spawnCallOf cfgW optsW).cwd = optsW.packagePath ∧
    (spawnCallOf cfgW optsW).envForceColor = true ∧
    (spawnCallOf cfgW optsW).stdio =
      { stdin := StdioChannel.inherit, stdout := StdioChannel.pipe,
        stderr := StdioChannel.parentStderr } := by
  have h := C7_spawn_contract cfgW optsW
  exact ⟨h.1, h.2.1, h.2.2.1, h.2.2.2.1, h.2.2.2.2.1, h.2.2.2.2.2.2 rfl⟩

/-- C8: add and addDir events insert the notified path into the watch set
with the insertion preceding the action effects, unlink and unlinkDir remove
it, and both operations are idempotent: repeating the same event leaves the
watch set unchanged and never errors. -/
theorem C8_watch_registration (st : EventsState) (filePath : String) (world : World) :
    filePath ∈ (onAddEvent st filePath world).1.watchSet ∧
    (onAddEvent st filePath world).2.head? = some (Effect.watchAdd filePath) ∧
    filePath ∈ (onAddDirEvent st filePath world).1.watchSet ∧
    (onAddDirEvent st filePath world).2.head? = some (Effect.watchAdd filePath) ∧
    filePath ∉ (onUnlinkEvent st filePath world).1.watchSet ∧
    filePath ∉ (onUnlinkDirEvent st filePath world).1.watchSet ∧
    (onAddEvent (onAddEvent st filePath world).1 filePath world).1.watchSet =
      (onAddEvent st filePath world).1.watchSet ∧
    (onUnlinkEvent (onUnlinkEvent st filePath world).1 filePath world).1.watchSet =
      (onUnlinkEvent st filePath world).1.watchSet := by
  have hmem : ∀ (s : List String) (p : String), p ∈ wsAdd s p := by
    intro s p
    by_cases h : p ∈ s <;> simp [wsAdd, h]
  have hnot : ∀ (s : List String) (p : String), p ∉ wsUnwatch s p := by
    intro s p h
    simp [wsUnwatch, List.mem_filter] at h
  have hidemA : ∀ (s : List String) (p : String), wsAdd (wsAdd s p) p = wsAdd s p := by
    intro s p
    show (if p ∈ wsAdd s p then wsAdd s p else wsAdd s p ++ [p]) = wsAdd s p
    rw [if_pos (hmem s p)]
  have hidemU : ∀ (s : List String) (p : String), wsUnwatch (wsUnwatch s p) p = wsUnwatch s p := by
    intro s p
    simp [wsUnwatch, List.filter_filter]
  refine ⟨hmem st.watchSet filePath, rfl, hmem st.watchSet filePath, rfl,
    hnot st.watchSet filePath, hnot st.watchSet filePath,
    hidemA st.watchSet filePath, hidemU st.watchSet filePath⟩

/-- C9: when the CLI run list is non-empty, any successfully merged
configuration carries exactly that list as its command list, whatever the
config file's runScripts said; the replacement happens once, inside
normalizeConfig and the merge. -/
theorem C9_cli_run_override (config : IConfig) (packages : List Package) (argv : ArgsOptions)
    (ic : InternalConfig) (hrun : argv.run ≠ [])
    (h : MergeNormalizeConfig config packages argv = Except.ok ic) :
    ic.runScripts = argv.run := by
  unfold MergeNormalizeConfig at h
  cases hn : normalizeConfig config packages argv with
  | error e =>
    rw [hn] at h
    exact Except.noConfusion h
  | ok c =>
    rw [hn] at h
    have hc := normalizeConfig_run_override config packages argv c hrun hn
    injection h with h
    rw [← h]
    simp [mergeConfig, defaultConfig, hc, mergeArr]

/-- Witness for C9: a config file requesting npm test is overridden by the
CLI run list echo hi in the merged configuration. -/
theorem C9_cli_run_override_witness :
    MergeNormalizeConfig cfgEx9 pkgsEx9 argvEx9 = Except.ok icEx9 ∧
    icEx9.runScripts = ["echo", "hi"] := by
  have hok : MergeNormalizeConfig cfgEx9 pkgsEx9 argvEx9 = Except.ok icEx9 := by rfl
  exact ⟨hok, C9_cli_run_override cfgEx9 pkgsEx9 argvEx9 icEx9 (by decide) hok⟩

/-- C10: the currentPkg reported for a resolved event is the final
slash-separated segment of the matched package directory, and it equals the
package's declared manifest name exactly when that basename coincides with
the name. -/
theorem C10_currentPkg_basename (p : String) (l₁ : List Package) (pkg : Package)
    (l₂ : List Package) (hm : pkgMatches p pkg = true)
    (hl₂ : ∀ q ∈ l₂, pkgMatches p q = false) :
    (getPackage p (l₁ ++ pkg :: l₂)).1 = lastSegment pkg.dir ∧
    ((getPackage p (l₁ ++ pkg :: l₂)).1 = pkg.name ↔ lastSegment pkg.dir = pkg.name) := by
  have h := getPackage_last_match p l₁ pkg l₂ hm hl₂
  rw [h]
  exact ⟨rfl, Iff.rfl⟩

/-- Witness for C10: a package named @scope/foo living in a directory whose
basename is foo reports currentPkg foo, which differs from the manifest
name. -/
theorem C10_currentPkg_basename_witness :
    ((getPackage "/repo/packages/foo/src/i.ts" [pkgEx10]).1 = lastSegment pkgEx10.dir ∧
      ((getPackage "/repo/packages/foo/src/i.ts" [pkgEx10]).1 = pkgEx10.name ↔
        lastSegment pkgEx10.dir = pkgEx10.name)) ∧
    ¬(getPackage "/repo/packages/foo/src/i.ts" [pkgEx10]).1 = pkgEx10.name := by
  constructor
  · exact C10_currentPkg_basename "/repo/packages/foo/src/i.ts" [] pkgEx10 [] (by decide)
      (by intro q hq; cases hq)
  · decide

end MonorepoWatcher
